import Mathlib

/-!  Verification of the confidence-interval functions of `src/functions.py`:
a Student-t interval for a sample mean (`t_confidence_interval`), a Wald
interval for a single proportion (`proportion_conf_interval`), and a Wald
interval for the difference of two proportions
(`diff_proportion_conf_interval`).

Numbers are modelled exactly: finite floating-point values are rationals
(`ℚ`), and IEEE NaN — which numpy produces (with a warning, never an
exception) for the mean of an empty input, for a standard deviation with
degrees of freedom at most zero, and for the square root of a negative —
is the explicit value `PyF.nan`.  Python scalar division (`int / int` and
`float / int`, as in the two proportion functions) raises
`ZeroDivisionError` on a zero denominator, so those two functions return
`Except`.  The external numeric primitives of the host statistics library
(spec section 6) — the Student-t quantile, the standard-normal quantile and
the square root — are opaque parameters `tppf`, `npf` and `sq`; theorems
assume of them only what the specification states of the trusted
primitives. -/

/-- A Python/numpy floating value: either NaN or a finite number, the
finite numbers modelled exactly as rationals. -/
inductive PyF where
  | nan : PyF
  | val : ℚ → PyF
  deriving DecidableEq, Repr

/-- numpy float addition: NaN propagates. -/
def PyF.add : PyF → PyF → PyF
  | .val a, .val b => .val (a + b)
  | _, _ => .nan

/-- numpy float subtraction: NaN propagates. -/
def PyF.sub : PyF → PyF → PyF
  | .val a, .val b => .val (a - b)
  | _, _ => .nan

/-- numpy float multiplication: NaN propagates. -/
def PyF.mul : PyF → PyF → PyF
  | .val a, .val b => .val (a * b)
  | _, _ => .nan

/-- numpy float division: NaN propagates.  A zero denominator does not
raise in numpy: with a zero numerator it yields NaN, and the
nonzero-numerator case (an IEEE infinity) is conflated with NaN here —
no reachable call of the embedded code divides a finite nonzero numerator
by zero. -/
def PyF.div : PyF → PyF → PyF
  | .val a, .val b => if b = 0 then .nan else .val (a / b)
  | _, _ => .nan

/-- numpy scalar square root, with the square-root primitive `sq` of the
host library opaque: NaN for a negative argument (numpy warns and returns
NaN), `sq x` for a nonnegative argument. -/
def PyF.sqrt (sq : ℚ → ℚ) : PyF → PyF
  | .val a => if 0 ≤ a then .val (sq a) else .nan
  | .nan => .nan

/-- The sample mean of `data` as an exact rational (the value of
`np.mean(data)` on nonempty input). -/
def sampleMean (data : List ℚ) : ℚ := data.sum / (data.length : ℚ)

/-- The Bessel-corrected sample variance of `data`: the sum of squared
deviations from the sample mean divided by `n - 1`. -/
def sampleVar (data : List ℚ) : ℚ :=
  ((data.map fun x => (x - sampleMean data) ^ 2)).sum / ((data.length : ℚ) - 1)

/-- `np.mean(data)`: the arithmetic mean; on an empty input numpy warns and
returns NaN. -/
def np_mean (data : List ℚ) : PyF :=
  if data.length = 0 then .nan else .val (sampleMean data)

/-- `np.std(data, ddof=1)`: the Bessel-corrected sample standard deviation;
when the length is at most the `ddof` of 1 numpy warns (degrees of freedom
at most 0) and returns NaN. -/
def np_std (sq : ℚ → ℚ) (data : List ℚ) : PyF :=
  if data.length ≤ 1 then .nan else PyF.sqrt sq (.val (sampleVar data))

/-- Modelled from the spec: `scipy.stats.t.interval(confidence, df, loc,
scale)`, the external trusted numeric primitive of spec section 6 whose
internals are out of scope — the equal-tailed interval `loc ± q · scale`
where `q = tppf df (1 - (1 - confidence)/2)` is the Student-t quantile with
`df` degrees of freedom, i.e. the two-sided critical value at the given
confidence. -/
def t_interval (tppf : ℤ → ℚ → ℚ) (confidence : ℚ) (df : ℤ)
    (loc scale : PyF) : PyF × PyF :=
  let q := PyF.val (tppf df (1 - (1 - confidence) / 2))
  (loc.sub (q.mul scale), loc.add (q.mul scale))

/-- `t_confidence_interval(data, alpha)` of `src/functions.py`: the sample
mean, the Bessel-corrected standard deviation, and the Student-t interval at
confidence `1 - alpha` with `df = n - 1` and `scale = s / np.sqrt(n)`.  The
Python function performs no input validation and never raises: numpy only
warns on degenerate inputs, so a triple is always returned. -/
def t_confidence_interval (tppf : ℤ → ℚ → ℚ) (sq : ℚ → ℚ)
    (data : List ℚ) (alpha : ℚ) : PyF × PyF × PyF :=
  let n := data.length
  let x_mean := np_mean data
  let x_std := np_std sq data
  let df : ℤ := (n : ℤ) - 1
  let scale := x_std.div (PyF.sqrt sq (.val (n : ℚ)))
  let p := t_interval tppf (1 - alpha) df x_mean scale
  (x_mean, p.1, p.2)

/-- The Python exceptions the embedded code can raise. -/
inductive PyError where
  | zeroDivision : PyError
  deriving DecidableEq, Repr

/-- `proportion_conf_interval(x_success, n_total, alpha)` of
`src/functions.py`.  `x_success / n_total` is Python integer true division:
it raises `ZeroDivisionError` when `n_total = 0` and otherwise yields the
exact quotient.  No input validation is performed. -/
def proportion_conf_interval (npf sq : ℚ → ℚ) (x_success n_total : ℤ)
    (alpha : ℚ) : Except PyError (PyF × PyF × PyF) :=
  if n_total = 0 then .error .zeroDivision
  else
    let p_hat : ℚ := (x_success : ℚ) / (n_total : ℚ)
    let z_crit : ℚ := npf (1 - alpha / 2)
    let se := PyF.sqrt sq (.val (p_hat * (1 - p_hat) / (n_total : ℚ)))
    .ok (.val p_hat, (PyF.val p_hat).sub ((PyF.val z_crit).mul se),
      (PyF.val p_hat).add ((PyF.val z_crit).mul se))

/-- `diff_proportion_conf_interval(x_p, n, gamma)` of `src/functions.py`:
the difference of the two proportions (second minus first) with the summed
Wald standard error.  Each `x_p[i]*(1-x_p[i])/n[i]` is Python float
division and raises `ZeroDivisionError` when the corresponding `n[i]` is
zero.  No input validation is performed. -/
def diff_proportion_conf_interval (npf sq : ℚ → ℚ) (x_p : ℚ × ℚ)
    (n : ℤ × ℤ) (gamma : ℚ) : Except PyError (PyF × PyF × PyF) :=
  if n.1 = 0 ∨ n.2 = 0 then .error .zeroDivision
  else
    let alpha := 1 - gamma
    let diff := x_p.2 - x_p.1
    let se := PyF.sqrt sq
      (.val (x_p.1 * (1 - x_p.1) / (n.1 : ℚ) + x_p.2 * (1 - x_p.2) / (n.2 : ℚ)))
    let z_crit := npf (1 - alpha / 2)
    .ok (.val diff, (PyF.val diff).sub ((PyF.val z_crit).mul se),
      (PyF.val diff).add ((PyF.val z_crit).mul se))

/-- Rewrite rule: subtraction of finite values. -/
@[simp] theorem PyF.val_sub (a b : ℚ) : (PyF.val a).sub (.val b) = .val (a - b) := rfl

/-- Rewrite rule: NaN on the right of a subtraction. -/
@[simp] theorem PyF.sub_nan (x : PyF) : x.sub .nan = .nan := by cases x <;> rfl

/-- Rewrite rule: NaN on the left of a subtraction. -/
@[simp] theorem PyF.nan_sub (x : PyF) : PyF.sub .nan x = .nan := by cases x <;> rfl

/-- Rewrite rule: addition of finite values. -/
@[simp] theorem PyF.val_add (a b : ℚ) : (PyF.val a).add (.val b) = .val (a + b) := rfl

/-- Rewrite rule: NaN on the right of an addition. -/
@[simp] theorem PyF.add_nan (x : PyF) : x.add .nan = .nan := by cases x <;> rfl

/-- Rewrite rule: NaN on the left of an addition. -/
@[simp] theorem PyF.nan_add (x : PyF) : PyF.add .nan x = .nan := by cases x <;> rfl

/-- Rewrite rule: multiplication of finite values. -/
@[simp] theorem PyF.val_mul (a b : ℚ) : (PyF.val a).mul (.val b) = .val (a * b) := rfl

/-- Rewrite rule: NaN on the right of a multiplication. -/
@[simp] theorem PyF.mul_nan (x : PyF) : x.mul .nan = .nan := by cases x <;> rfl

/-- Rewrite rule: NaN on the left of a multiplication. -/
@[simp] theorem PyF.nan_mul (x : PyF) : PyF.mul .nan x = .nan := by cases x <;> rfl

/-- Rewrite rule: division of finite values. -/
@[simp] theorem PyF.val_div (a b : ℚ) :
    (PyF.val a).div (.val b) = if b = 0 then .nan else .val (a / b) := rfl

/-- Rewrite rule: NaN on the right of a division. -/
@[simp] theorem PyF.div_nan (x : PyF) : x.div .nan = .nan := by cases x <;> rfl

/-- Rewrite rule: NaN on the left of a division. -/
@[simp] theorem PyF.nan_div (x : PyF) : PyF.div .nan x = .nan := by cases x <;> rfl

/-- Rewrite rule: square root of a finite value. -/
@[simp] theorem PyF.sqrt_val (sq : ℚ → ℚ) (a : ℚ) :
    PyF.sqrt sq (.val a) = if 0 ≤ a then .val (sq a) else .nan := rfl

/-- Rewrite rule: square root of NaN. -/
@[simp] theorem PyF.sqrt_nan (sq : ℚ → ℚ) : PyF.sqrt sq .nan = .nan := rfl

/-- The Bessel-corrected sample variance is nonnegative once the sample has
at least two points. -/
theorem sampleVar_nonneg (data : List ℚ) (h2 : 2 ≤ data.length) :
    0 ≤ sampleVar data := by
  have hnum : 0 ≤ ((data.map fun x => (x - sampleMean data) ^ 2)).sum := by
    apply List.sum_nonneg
    intro y hy
    obtain ⟨x, hx, rfl⟩ := List.mem_map.1 hy
    positivity
  have hden : (0:ℚ) ≤ (data.length : ℚ) - 1 := by
    have h : (2:ℚ) ≤ (data.length : ℚ) := by exact_mod_cast h2
    linarith
  exact div_nonneg hnum hden

/-- Evaluation of `t_confidence_interval` on a sample of at least two
points, assuming only that the opaque root primitive does not vanish at the
sample size (true of the genuine square root since `n ≥ 2`): the returned
triple is `(x̄, x̄ - q·se, x̄ + q·se)` with `q` the t-quantile at
`1 - alpha/2` with `n - 1` degrees of freedom and `se = s/√n`. -/
theorem t_conf_eval (tppf : ℤ → ℚ → ℚ) (sq : ℚ → ℚ) (data : List ℚ)
    (alpha : ℚ) (h2 : 2 ≤ data.length) (hsq : sq ((data.length : ℚ)) ≠ 0) :
    t_confidence_interval tppf sq data alpha =
      (.val (sampleMean data),
       .val (sampleMean data - tppf ((data.length : ℤ) - 1) (1 - alpha / 2) *
         (sq (sampleVar data) / sq ((data.length : ℚ)))),
       .val (sampleMean data + tppf ((data.length : ℤ) - 1) (1 - alpha / 2) *
         (sq (sampleVar data) / sq ((data.length : ℚ))))) := by
  have hne : ¬ data.length = 0 := by omega
  have hgt : ¬ data.length ≤ 1 := by omega
  have hvar : 0 ≤ sampleVar data := sampleVar_nonneg data h2
  have hlen : (0:ℚ) ≤ (data.length : ℚ) := by positivity
  have harg : 1 - (1 - (1 - alpha)) / 2 = 1 - alpha / 2 := by ring
  simp only [t_confidence_interval, np_mean, np_std, t_interval, if_neg hne,
    if_neg hgt, PyF.sqrt_val, if_pos hvar, if_pos hlen, PyF.val_div,
    if_neg hsq, PyF.val_mul, PyF.val_sub, PyF.val_add, harg]

/-- Evaluation of `proportion_conf_interval` on inputs satisfying the
contract `0 ≤ x ≤ n`, `n > 0`: the Wald triple with the opaque normal
quantile and root primitives. -/
theorem prop_eval (npf sq : ℚ → ℚ) (x n : ℤ) (alpha : ℚ)
    (h0 : 0 ≤ x) (hxn : x ≤ n) (hn : 0 < n) :
    proportion_conf_interval npf sq x n alpha =
      .ok (.val ((x : ℚ) / (n : ℚ)),
        .val ((x : ℚ) / (n : ℚ) - npf (1 - alpha / 2) *
          sq ((x : ℚ) / (n : ℚ) * (1 - (x : ℚ) / (n : ℚ)) / (n : ℚ))),
        .val ((x : ℚ) / (n : ℚ) + npf (1 - alpha / 2) *
          sq ((x : ℚ) / (n : ℚ) * (1 - (x : ℚ) / (n : ℚ)) / (n : ℚ)))) := by
  have hne : ¬ n = 0 := by omega
  have hnq : (0:ℚ) < (n : ℚ) := by exact_mod_cast hn
  have hp0 : 0 ≤ (x:ℚ) / (n:ℚ) := div_nonneg (by exact_mod_cast h0) hnq.le
  have hp1 : (x:ℚ) / (n:ℚ) ≤ 1 := (div_le_one hnq).2 (by exact_mod_cast hxn)
  have hse : 0 ≤ (x:ℚ) / (n:ℚ) * (1 - (x:ℚ) / (n:ℚ)) / (n:ℚ) :=
    div_nonneg (mul_nonneg hp0 (by linarith)) hnq.le
  simp only [proportion_conf_interval, if_neg hne, PyF.sqrt_val, if_pos hse,
    PyF.val_mul, PyF.val_sub, PyF.val_add]

/-- Evaluation of `diff_proportion_conf_interval` on inputs satisfying the
contract (both proportions in `[0,1]`, both sizes positive): the Wald triple
for the difference, with the normal quantile taken at `1 - (1 - gamma)/2`. -/
theorem dprop_eval (npf sq : ℚ → ℚ) (p : ℚ × ℚ) (n : ℤ × ℤ) (gamma : ℚ)
    (hp10 : 0 ≤ p.1) (hp11 : p.1 ≤ 1) (hp20 : 0 ≤ p.2) (hp21 : p.2 ≤ 1)
    (hn1 : 0 < n.1) (hn2 : 0 < n.2) :
    diff_proportion_conf_interval npf sq p n gamma =
      .ok (.val (p.2 - p.1),
        .val (p.2 - p.1 - npf (1 - (1 - gamma) / 2) *
          sq (p.1 * (1 - p.1) / (n.1 : ℚ) + p.2 * (1 - p.2) / (n.2 : ℚ))),
        .val (p.2 - p.1 + npf (1 - (1 - gamma) / 2) *
          sq (p.1 * (1 - p.1) / (n.1 : ℚ) + p.2 * (1 - p.2) / (n.2 : ℚ)))) := by
  have hne : ¬ (n.1 = 0 ∨ n.2 = 0) := by omega
  have hn1q : (0:ℚ) < (n.1 : ℚ) := by exact_mod_cast hn1
  have hn2q : (0:ℚ) < (n.2 : ℚ) := by exact_mod_cast hn2
  have hse : 0 ≤ p.1 * (1 - p.1) / (n.1 : ℚ) + p.2 * (1 - p.2) / (n.2 : ℚ) := by
    have t1 : 0 ≤ p.1 * (1 - p.1) / (n.1 : ℚ) :=
      div_nonneg (mul_nonneg hp10 (by linarith)) hn1q.le
    have t2 : 0 ≤ p.2 * (1 - p.2) / (n.2 : ℚ) :=
      div_nonneg (mul_nonneg hp20 (by linarith)) hn2q.le
    linarith
  simp only [diff_proportion_conf_interval, if_neg hne, PyF.sqrt_val,
    if_pos hse, PyF.val_mul, PyF.val_sub, PyF.val_add]

/-- C1: for a sample of at least two points and `alpha` in `(0,1)`,
`t_confidence_interval` returns `(x̄, x̄ - q·se, x̄ + q·se)` where `x̄` is
the sample mean, `s` the Bessel-corrected sample standard deviation
(`sq` of the sum of squared deviations over `n - 1`), `q` the two-sided
Student-t critical value with `n - 1` degrees of freedom at confidence
`1 - alpha` (the quantile at `1 - alpha/2`), and `se = s/√n`.  The quantile
`tppf` and root `sq` are the opaque trusted primitives of spec section 6;
the only fact assumed of them is that the root of the sample size is
nonzero, true of the genuine square root since `n ≥ 2`. -/
theorem t_confidence_interval_formula (tppf : ℤ → ℚ → ℚ) (sq : ℚ → ℚ)
    (data : List ℚ) (alpha : ℚ) (h2 : 2 ≤ data.length)
    (ha0 : 0 < alpha) (ha1 : alpha < 1) (hsq : sq ((data.length : ℚ)) ≠ 0) :
    t_confidence_interval tppf sq data alpha =
      (.val (sampleMean data),
       .val (sampleMean data - tppf ((data.length : ℤ) - 1) (1 - alpha / 2) *
         (sq (sampleVar data) / sq ((data.length : ℚ)))),
       .val (sampleMean data + tppf ((data.length : ℤ) - 1) (1 - alpha / 2) *
         (sq (sampleVar data) / sq ((data.length : ℚ))))) :=
  t_conf_eval tppf sq data alpha h2 hsq

/-- Witness for C1 at `data = [0, 2]`, `alpha = 1/2`, with the quantile
constantly `1` and the root constantly `1`: the mean is `1`, the variance
`2`, and the interval `(0, 2)`. -/
theorem t_confidence_interval_formula_witness :
    t_confidence_interval (fun _ _ => 1) (fun _ => 1) [0, 2] (1/2) =
      (.val 1, .val 0, .val 2) := by
  have h := t_confidence_interval_formula (fun _ _ => 1) (fun _ => 1) [0, 2]
    (1/2) (by norm_num) (by norm_num) (by norm_num) (by norm_num)
  rw [h]
  norm_num [sampleMean, sampleVar, List.sum_cons, List.sum_nil,
    List.map_cons, List.map_nil]

/-- C2: under the contract `0 ≤ x_success ≤ n_total`, `n_total > 0` and
`alpha` in `(0,1)`, `proportion_conf_interval` returns the Wald triple
`(p̂, p̂ - z·se, p̂ + z·se)` with `p̂ = x_success/n_total`,
`z = npf (1 - alpha/2)` the standard-normal critical value, and
`se = sq (p̂(1-p̂)/n_total)`.  The bounds are exactly this unclamped
formula — whenever `z·se` exceeds `p̂` the lower bound is negative, and
whenever `p̂ + z·se` exceeds `1` the upper bound does too; no clamping to
`[0,1]` is applied. -/
theorem proportion_conf_interval_formula (npf sq : ℚ → ℚ) (x n : ℤ)
    (alpha : ℚ) (h0 : 0 ≤ x) (hxn : x ≤ n) (hn : 0 < n)
    (ha0 : 0 < alpha) (ha1 : alpha < 1) :
    proportion_conf_interval npf sq x n alpha =
      .ok (.val ((x : ℚ) / (n : ℚ)),
        .val ((x : ℚ) / (n : ℚ) - npf (1 - alpha / 2) *
          sq ((x : ℚ) / (n : ℚ) * (1 - (x : ℚ) / (n : ℚ)) / (n : ℚ))),
        .val ((x : ℚ) / (n : ℚ) + npf (1 - alpha / 2) *
          sq ((x : ℚ) / (n : ℚ) * (1 - (x : ℚ) / (n : ℚ)) / (n : ℚ)))) :=
  prop_eval npf sq x n alpha h0 hxn hn

/-- Witness for C2 at `x_success = 50`, `n_total = 100`, `alpha = 1/20`,
with the normal quantile constantly `2` and the root the identity:
`p̂ = 1/2`, `se = 1/400`, interval `(99/200, 101/200)`. -/
theorem proportion_conf_interval_formula_witness :
    proportion_conf_interval (fun _ => 2) (fun y => y) 50 100 (1/20) =
      .ok (.val (1/2), .val (99/200), .val (101/200)) := by
  have h := proportion_conf_interval_formula (fun _ => 2) (fun y => y) 50 100
    (1/20) (by norm_num) (by norm_num) (by norm_num) (by norm_num) (by norm_num)
  rw [h]
  norm_num

/-- C3: under the contract (both proportions in `[0,1]`, both sample sizes
positive, `gamma` in `(0,1)`), `diff_proportion_conf_interval` returns
`(diff, diff - z·se, diff + z·se)` with `diff = p_B - p_A` (second minus
first), `se = sq (p_A(1-p_A)/n_A + p_B(1-p_B)/n_B)` and
`z = npf (1 - (1-gamma)/2)`; the bounds are exactly this unclamped formula,
never clamped to `[-1, 1]`. -/
theorem diff_proportion_conf_interval_formula (npf sq : ℚ → ℚ) (p : ℚ × ℚ)
    (n : ℤ × ℤ) (gamma : ℚ) (hp10 : 0 ≤ p.1) (hp11 : p.1 ≤ 1)
    (hp20 : 0 ≤ p.2) (hp21 : p.2 ≤ 1) (hn1 : 0 < n.1) (hn2 : 0 < n.2)
    (hg0 : 0 < gamma) (hg1 : gamma < 1) :
    diff_proportion_conf_interval npf sq p n gamma =
      .ok (.val (p.2 - p.1),
        .val (p.2 - p.1 - npf (1 - (1 - gamma) / 2) *
          sq (p.1 * (1 - p.1) / (n.1 : ℚ) + p.2 * (1 - p.2) / (n.2 : ℚ))),
        .val (p.2 - p.1 + npf (1 - (1 - gamma) / 2) *
          sq (p.1 * (1 - p.1) / (n.1 : ℚ) + p.2 * (1 - p.2) / (n.2 : ℚ)))) :=
  dprop_eval npf sq p n gamma hp10 hp11 hp20 hp21 hn1 hn2

/-- Witness for C3 at proportions `(3/10, 3/10)`, sizes `(100, 100)`,
`gamma = 19/20`, with the normal quantile constantly `2` and the root the
identity: the difference is `0` and the interval `(-21/2500, 21/2500)`. -/
theorem diff_proportion_conf_interval_formula_witness :
    diff_proportion_conf_interval (fun _ => 2) (fun y => y) (3/10, 3/10)
      (100, 100) (19/20) =
      .ok (.val 0, .val (-21/2500), .val (21/2500)) := by
  have h := diff_proportion_conf_interval_formula (fun _ => 2) (fun y => y)
    (3/10, 3/10) (100, 100) (19/20) (by norm_num) (by norm_num) (by norm_num)
    (by norm_num) (by norm_num) (by norm_num) (by norm_num) (by norm_num)
  rw [h]
  norm_num

/-- C4: for valid inputs of all three functions (and with the trusted
primitives assumed nonnegative where the genuine ones are: quantiles at a
cumulative probability above one half are nonnegative, the square root is
nonnegative and positive at the sample size), each returned triple
`(point, lower, upper)` satisfies `lower ≤ point ≤ upper` and is symmetric
about the point estimate: `upper - point = point - lower`. -/
theorem conf_intervals_order_symmetric (tppf : ℤ → ℚ → ℚ) (npf sq : ℚ → ℚ)
    (data : List ℚ) (alpha : ℚ) (x nt : ℤ) (p : ℚ × ℚ) (nn : ℤ × ℤ)
    (gamma : ℚ) (h2 : 2 ≤ data.length) (ha0 : 0 < alpha) (ha1 : alpha < 1)
    (hx0 : 0 ≤ x) (hxn : x ≤ nt) (hnt : 0 < nt)
    (hp10 : 0 ≤ p.1) (hp11 : p.1 ≤ 1) (hp20 : 0 ≤ p.2) (hp21 : p.2 ≤ 1)
    (hn1 : 0 < nn.1) (hn2 : 0 < nn.2) (hg0 : 0 < gamma) (hg1 : gamma < 1)
    (hsq : ∀ y : ℚ, 0 ≤ y → 0 ≤ sq y) (hsqn : 0 < sq ((data.length : ℚ)))
    (htq : 0 ≤ tppf ((data.length : ℤ) - 1) (1 - alpha / 2))
    (hz1 : 0 ≤ npf (1 - alpha / 2)) (hz2 : 0 ≤ npf (1 - (1 - gamma) / 2)) :
    (∃ m lo hi : ℚ,
      t_confidence_interval tppf sq data alpha = (.val m, .val lo, .val hi) ∧
      lo ≤ m ∧ m ≤ hi ∧ hi - m = m - lo) ∧
    (∃ m lo hi : ℚ,
      proportion_conf_interval npf sq x nt alpha =
        .ok (.val m, .val lo, .val hi) ∧
      lo ≤ m ∧ m ≤ hi ∧ hi - m = m - lo) ∧
    (∃ m lo hi : ℚ,
      diff_proportion_conf_interval npf sq p nn gamma =
        .ok (.val m, .val lo, .val hi) ∧
      lo ≤ m ∧ m ≤ hi ∧ hi - m = m - lo) := by
  refine ⟨?_, ?_, ?_⟩
  · have heq := t_conf_eval tppf sq data alpha h2 (ne_of_gt hsqn)
    have hdisp : 0 ≤ tppf ((data.length : ℤ) - 1) (1 - alpha / 2) *
        (sq (sampleVar data) / sq ((data.length : ℚ))) :=
      mul_nonneg htq (div_nonneg (hsq _ (sampleVar_nonneg data h2)) hsqn.le)
    exact ⟨_, _, _, heq, by linarith, by linarith, by ring⟩
  · have heq := prop_eval npf sq x nt alpha hx0 hxn hnt
    have hnq : (0:ℚ) < (nt : ℚ) := by exact_mod_cast hnt
    have hp0 : 0 ≤ (x:ℚ) / (nt:ℚ) := div_nonneg (by exact_mod_cast hx0) hnq.le
    have hp1 : (x:ℚ) / (nt:ℚ) ≤ 1 := (div_le_one hnq).2 (by exact_mod_cast hxn)
    have hinner : 0 ≤ (x:ℚ) / (nt:ℚ) * (1 - (x:ℚ) / (nt:ℚ)) / (nt:ℚ) :=
      div_nonneg (mul_nonneg hp0 (by linarith)) hnq.le
    have hdisp : 0 ≤ npf (1 - alpha / 2) *
        sq ((x:ℚ) / (nt:ℚ) * (1 - (x:ℚ) / (nt:ℚ)) / (nt:ℚ)) :=
      mul_nonneg hz1 (hsq _ hinner)
    exact ⟨_, _, _, heq, by linarith, by linarith, by ring⟩
  · have heq := dprop_eval npf sq p nn gamma hp10 hp11 hp20 hp21 hn1 hn2
    have hn1q : (0:ℚ) < (nn.1 : ℚ) := by exact_mod_cast hn1
    have hn2q : (0:ℚ) < (nn.2 : ℚ) := by exact_mod_cast hn2
    have hinner : 0 ≤ p.1 * (1 - p.1) / (nn.1 : ℚ) +
        p.2 * (1 - p.2) / (nn.2 : ℚ) := by
      have t1 : 0 ≤ p.1 * (1 - p.1) / (nn.1 : ℚ) :=
        div_nonneg (mul_nonneg hp10 (by linarith)) hn1q.le
      have t2 : 0 ≤ p.2 * (1 - p.2) / (nn.2 : ℚ) :=
        div_nonneg (mul_nonneg hp20 (by linarith)) hn2q.le
      linarith
    have hdisp : 0 ≤ npf (1 - (1 - gamma) / 2) *
        sq (p.1 * (1 - p.1) / (nn.1 : ℚ) + p.2 * (1 - p.2) / (nn.2 : ℚ)) :=
      mul_nonneg hz2 (hsq _ hinner)
    exact ⟨_, _, _, heq, by linarith, by linarith, by ring⟩

/-- Witness for C4: all three triples at concrete valid inputs, with the
quantiles constantly `0` and the root constantly `1`. -/
theorem conf_intervals_order_symmetric_witness :
    (∃ m lo hi : ℚ,
      t_confidence_interval (fun _ _ => 0) (fun _ => 1) [0, 2] (1/2) =
        (.val m, .val lo, .val hi) ∧
      lo ≤ m ∧ m ≤ hi ∧ hi - m = m - lo) ∧
    (∃ m lo hi : ℚ,
      proportion_conf_interval (fun _ => 0) (fun _ => 1) 1 2 (1/2) =
        .ok (.val m, .val lo, .val hi) ∧
      lo ≤ m ∧ m ≤ hi ∧ hi - m = m - lo) ∧
    (∃ m lo hi : ℚ,
      diff_proportion_conf_interval (fun _ => 0) (fun _ => 1) (1/2, 1/2)
        (1, 1) (1/2) = .ok (.val m, .val lo, .val hi) ∧
      lo ≤ m ∧ m ≤ hi ∧ hi - m = m - lo) :=
  conf_intervals_order_symmetric (fun _ _ => 0) (fun _ => 0) (fun _ => 1)
    [0, 2] (1/2) 1 2 (1/2, 1/2) (1, 1) (1/2)
    (by norm_num) (by norm_num) (by norm_num) (by norm_num) (by norm_num)
    (by norm_num) (by norm_num) (by norm_num) (by norm_num) (by norm_num)
    (by norm_num) (by norm_num) (by norm_num) (by norm_num)
    (fun y _ => by norm_num) (by norm_num) (by norm_num) (by norm_num)
    (by norm_num)

/-- Counterexample for C5: on the one-point sample `[10]` (with concrete
instantiations of the opaque primitives) `t_confidence_interval` does not
fail with an invalid-input error — it returns the triple `(10, NaN, NaN)`:
numpy only warns on the degrees-of-freedom underflow. -/
theorem t_confidence_interval_small_n_counterexample :
    t_confidence_interval (fun _ _ => 2) (fun y => y) [10] (1/20) =
      (.val 10, .nan, .nan) := by
  norm_num [t_confidence_interval, np_mean, np_std, t_interval, sampleMean,
    List.sum_cons, List.sum_nil]

/-- C5 amended: on a sample of fewer than two points the function does not
fail — it returns the triple `(np.mean(data), NaN, NaN)`, whose first
component is itself NaN when the sample is empty. -/
theorem t_confidence_interval_small_n_returns_nan (tppf : ℤ → ℚ → ℚ)
    (sq : ℚ → ℚ) (data : List ℚ) (alpha : ℚ) (h : data.length < 2) :
    t_confidence_interval tppf sq data alpha = (np_mean data, .nan, .nan) ∧
    (data.length = 0 → np_mean data = .nan) := by
  constructor
  · have hle : data.length ≤ 1 := by omega
    simp only [t_confidence_interval, np_std, if_pos hle, PyF.nan_div,
      t_interval, PyF.mul_nan, PyF.sub_nan, PyF.add_nan]
  · intro h0
    simp [np_mean, h0]

/-- Witness for C5 amended, at the empty sample. -/
theorem t_confidence_interval_small_n_returns_nan_witness :
    t_confidence_interval (fun _ _ => 2) (fun y => y) ([] : List ℚ) (1/20) =
      (np_mean [], .nan, .nan) ∧
    (([] : List ℚ).length = 0 → np_mean ([] : List ℚ) = .nan) :=
  t_confidence_interval_small_n_returns_nan (fun _ _ => 2) (fun y => y) []
    (1/20) (by norm_num)

/-- Counterexample for C6: at `x_success = 150 > n_total = 100` (a violated
precondition) the function does not fail — it returns the triple
`(3/2, NaN, NaN)`: the negative variance argument only makes `np.sqrt`
warn and yield NaN. -/
theorem proportion_conf_interval_invalid_counterexample :
    proportion_conf_interval (fun _ => 2) (fun y => y) 150 100 (1/20) =
      .ok (.val (3/2), .nan, .nan) := by
  norm_num [proportion_conf_interval]

/-- C6 amended: only `n_total = 0` makes the function fail, and the failure
is the uncaught `ZeroDivisionError` of `x_success / n_total`, not an
explicit invalid-input check; for positive `n_total` with `x_success` out
of the range `[0, n_total]` the function returns the triple
`(p̂, NaN, NaN)`. -/
theorem proportion_conf_interval_invalid_behavior (npf sq : ℚ → ℚ)
    (x n : ℤ) (alpha : ℚ) :
    proportion_conf_interval npf sq x 0 alpha = .error .zeroDivision ∧
    (0 < n → x < 0 ∨ n < x →
      proportion_conf_interval npf sq x n alpha =
        .ok (.val ((x : ℚ) / (n : ℚ)), .nan, .nan)) := by
  constructor
  · simp [proportion_conf_interval]
  · intro hn hout
    have hne : ¬ n = 0 := by omega
    have hnq : (0:ℚ) < (n:ℚ) := by exact_mod_cast hn
    have hneg : (x:ℚ) / (n:ℚ) * (1 - (x:ℚ) / (n:ℚ)) / (n:ℚ) < 0 := by
      rcases hout with hx | hx
      · have hxq : (x:ℚ) < 0 := by exact_mod_cast hx
        have hp : (x:ℚ) / (n:ℚ) < 0 := div_neg_of_neg_of_pos hxq hnq
        have hm : (x:ℚ) / (n:ℚ) * (1 - (x:ℚ) / (n:ℚ)) < 0 :=
          mul_neg_of_neg_of_pos hp (by linarith)
        exact div_neg_of_neg_of_pos hm hnq
      · have hxq : (n:ℚ) < (x:ℚ) := by exact_mod_cast hx
        have hp : 1 < (x:ℚ) / (n:ℚ) := (one_lt_div hnq).2 hxq
        have hm : (x:ℚ) / (n:ℚ) * (1 - (x:ℚ) / (n:ℚ)) < 0 :=
          mul_neg_of_pos_of_neg (by linarith) (by linarith)
        exact div_neg_of_neg_of_pos hm hnq
    have hnot : ¬ (0 ≤ (x:ℚ) / (n:ℚ) * (1 - (x:ℚ) / (n:ℚ)) / (n:ℚ)) :=
      not_le.2 hneg
    simp only [proportion_conf_interval, if_neg hne, PyF.sqrt_val,
      if_neg hnot, PyF.mul_nan, PyF.sub_nan, PyF.add_nan]

/-- Witness for C6 amended: `n_total = 0` raises, and `x_success = -5`
with `n_total = 100` returns `(-1/20, NaN, NaN)`. -/
theorem proportion_conf_interval_invalid_behavior_witness :
    proportion_conf_interval (fun _ => 2) (fun y => y) (-5) 0 (1/20) =
      .error .zeroDivision ∧
    proportion_conf_interval (fun _ => 2) (fun y => y) (-5) 100 (1/20) =
      .ok (.val (-1/20), .nan, .nan) := by
  have h := proportion_conf_interval_invalid_behavior (fun _ => 2)
    (fun y => y) (-5) 100 (1/20)
  refine ⟨h.1, ?_⟩
  rw [h.2 (by norm_num) (Or.inl (by norm_num))]
  norm_num

/-- Counterexample for C7: at a first proportion of `2` (outside `[0,1]`,
a violated precondition) with positive sizes the function does not fail —
it returns the triple `(-3/2, NaN, NaN)`: the negative variance sum only
makes `np.sqrt` warn and yield NaN. -/
theorem diff_proportion_conf_interval_invalid_counterexample :
    diff_proportion_conf_interval (fun _ => 2) (fun y => y) (2, 1/2) (1, 1)
      (19/20) = .ok (.val (-3/2), .nan, .nan) := by
  norm_num [diff_proportion_conf_interval]

/-- C7 amended: only a zero sample size makes the function fail, and the
failure is the uncaught `ZeroDivisionError` of the variance-term division,
not an explicit invalid-input check; with nonzero sizes, proportions
outside `[0,1]` do not fail — whenever they make the variance sum negative
the function returns the triple `(diff, NaN, NaN)`. -/
theorem diff_proportion_conf_interval_invalid_behavior (npf sq : ℚ → ℚ)
    (p : ℚ × ℚ) (n : ℤ × ℤ) (gamma : ℚ) :
    (n.1 = 0 ∨ n.2 = 0 →
      diff_proportion_conf_interval npf sq p n gamma = .error .zeroDivision) ∧
    (n.1 ≠ 0 → n.2 ≠ 0 →
      p.1 * (1 - p.1) / (n.1 : ℚ) + p.2 * (1 - p.2) / (n.2 : ℚ) < 0 →
      diff_proportion_conf_interval npf sq p n gamma =
        .ok (.val (p.2 - p.1), .nan, .nan)) := by
  constructor
  · intro h
    simp only [diff_proportion_conf_interval, if_pos h]
  · intro h1 h2 hneg
    have hne : ¬ (n.1 = 0 ∨ n.2 = 0) := by tauto
    have hnot : ¬ (0 ≤ p.1 * (1 - p.1) / (n.1 : ℚ) +
        p.2 * (1 - p.2) / (n.2 : ℚ)) := not_le.2 hneg
    simp only [diff_proportion_conf_interval, if_neg hne, PyF.sqrt_val,
      if_neg hnot, PyF.mul_nan, PyF.sub_nan, PyF.add_nan]

/-- Witness for C7 amended: a zero first size raises, and the proportions
`(2, 1/2)` with sizes `(1, 1)` return `(-3/2, NaN, NaN)`. -/
theorem diff_proportion_conf_interval_invalid_behavior_witness :
    diff_proportion_conf_interval (fun _ => 2) (fun y => y) (2, 1/2) (0, 5)
      (19/20) = .error .zeroDivision ∧
    diff_proportion_conf_interval (fun _ => 2) (fun y => y) (2, 1/2) (1, 1)
      (19/20) = .ok (.val (-3/2), .nan, .nan) := by
  constructor
  · exact (diff_proportion_conf_interval_invalid_behavior (fun _ => 2)
      (fun y => y) (2, 1/2) (0, 5) (19/20)).1 (Or.inl rfl)
  · have h := (diff_proportion_conf_interval_invalid_behavior (fun _ => 2)
      (fun y => y) (2, 1/2) (1, 1) (19/20)).2 (by norm_num) (by norm_num)
      (by norm_num)
    rw [h]
    norm_num

/-- C8: on constant data of at least two points the sample variance is `0`,
so (the trusted root sending `0` to `0` and not vanishing at the sample
size) the interval collapses to a single point: the function returns
`(c, c, c)`. -/
theorem t_confidence_interval_constant_collapse (tppf : ℤ → ℚ → ℚ)
    (sq : ℚ → ℚ) (data : List ℚ) (c alpha : ℚ) (h2 : 2 ≤ data.length)
    (hc : ∀ y ∈ data, y = c) (hsq0 : sq 0 = 0)
    (hsqn : sq ((data.length : ℚ)) ≠ 0) :
    t_confidence_interval tppf sq data alpha = (.val c, .val c, .val c) := by
  have hnq : (data.length : ℚ) ≠ 0 := by
    have hne : data.length ≠ 0 := by omega
    exact_mod_cast hne
  have hmean : sampleMean data = c := by
    unfold sampleMean
    rw [List.sum_eq_card_nsmul data c hc, nsmul_eq_mul,
      mul_div_cancel_left₀ c hnq]
  have hvar : sampleVar data = 0 := by
    unfold sampleVar
    have hz : ((data.map fun y => (y - sampleMean data) ^ 2)).sum = 0 := by
      apply List.sum_eq_zero
      intro y hy
      obtain ⟨z, hz, rfl⟩ := List.mem_map.1 hy
      rw [hc z hz, hmean]
      ring
    rw [hz, zero_div]
  rw [t_conf_eval tppf sq data alpha h2 hsqn, hmean, hvar, hsq0, zero_div,
    mul_zero, sub_zero, add_zero]

/-- Witness for C8 at `data = [10, 10, 10, 10]`, the test vector of the
spec: the function returns mean `10`, lower `10`, upper `10`. -/
theorem t_confidence_interval_constant_collapse_witness :
    t_confidence_interval (fun _ _ => 2) (fun y => y) [10, 10, 10, 10]
      (1/20) = (.val 10, .val 10, .val 10) :=
  t_confidence_interval_constant_collapse (fun _ _ => 2) (fun y => y)
    [10, 10, 10, 10] 10 (1/20) (by norm_num) (by simp) rfl (by norm_num)

/-- C9: when `p̂` is exactly `0` or exactly `1` (that is, `x_success` is
`0` or `n_total`), the variance argument is exactly `0`, so with the
trusted root sending `0` to `0` the standard error vanishes and the
function returns the point interval `(p̂, p̂, p̂)`; in particular for
`x_success = 0` the lower bound is exactly `0`, never negative. -/
theorem proportion_conf_interval_degenerate_point (npf sq : ℚ → ℚ)
    (x n : ℤ) (alpha : ℚ) (hn : 0 < n) (hx : x = 0 ∨ x = n)
    (hsq0 : sq 0 = 0) :
    proportion_conf_interval npf sq x n alpha =
      .ok (.val ((x : ℚ) / (n : ℚ)), .val ((x : ℚ) / (n : ℚ)),
        .val ((x : ℚ) / (n : ℚ))) := by
  have h0 : 0 ≤ x := by rcases hx with rfl | rfl <;> omega
  have hxn : x ≤ n := by rcases hx with rfl | rfl <;> omega
  have heq := prop_eval npf sq x n alpha h0 hxn hn
  have hzero : (x:ℚ) / (n:ℚ) * (1 - (x:ℚ) / (n:ℚ)) / (n:ℚ) = 0 := by
    have hnq : (n:ℚ) ≠ 0 := by
      have hne : n ≠ 0 := by omega
      exact_mod_cast hne
    rcases hx with rfl | rfl
    · simp
    · rw [div_self hnq]
      norm_num
  rw [heq, hzero, hsq0, mul_zero, sub_zero, add_zero]

/-- Witness for C9 at `x_success = 0`, `n_total = 100`: the function
returns `(0, 0, 0)`, the lower bound exactly `0`. -/
theorem proportion_conf_interval_degenerate_point_witness :
    proportion_conf_interval (fun _ => 2) (fun y => y) 0 100 (1/20) =
      .ok (.val 0, .val 0, .val 0) := by
  have h := proportion_conf_interval_degenerate_point (fun _ => 2)
    (fun y => y) 0 100 (1/20) (by norm_num) (Or.inl rfl) rfl
  rw [h]
  norm_num

/-- C10: swapping the two groups negates and reverses the interval — if
the input `(p, n)` yields `(d, d - s, d + s)` then the swapped input
`((p_B, p_A), (n_B, n_A))` with the same `gamma` yields
`(-d, -d - s, -d + s)`, i.e. `(-diff, -upper, -lower)`, because the
standard-error sum is invariant under the swap. -/
theorem diff_proportion_conf_interval_swap_antisym (npf sq : ℚ → ℚ)
    (p : ℚ × ℚ) (n : ℤ × ℤ) (gamma : ℚ) (hp10 : 0 ≤ p.1) (hp11 : p.1 ≤ 1)
    (hp20 : 0 ≤ p.2) (hp21 : p.2 ≤ 1) (hn1 : 0 < n.1) (hn2 : 0 < n.2)
    (hg0 : 0 < gamma) (hg1 : gamma < 1) :
    ∃ d s : ℚ,
      diff_proportion_conf_interval npf sq p n gamma =
        .ok (.val d, .val (d - s), .val (d + s)) ∧
      diff_proportion_conf_interval npf sq (p.2, p.1) (n.2, n.1) gamma =
        .ok (.val (-d), .val (-d - s), .val (-d + s)) := by
  refine ⟨p.2 - p.1, npf (1 - (1 - gamma) / 2) *
    sq (p.1 * (1 - p.1) / (n.1 : ℚ) + p.2 * (1 - p.2) / (n.2 : ℚ)), ?_, ?_⟩
  · exact dprop_eval npf sq p n gamma hp10 hp11 hp20 hp21 hn1 hn2
  · have h := dprop_eval npf sq (p.2, p.1) (n.2, n.1) gamma hp20 hp21
      hp10 hp11 hn2 hn1
    have hsum : p.2 * (1 - p.2) / ((n.2 : ℤ) : ℚ) +
        p.1 * (1 - p.1) / ((n.1 : ℤ) : ℚ) =
        p.1 * (1 - p.1) / ((n.1 : ℤ) : ℚ) +
        p.2 * (1 - p.2) / ((n.2 : ℤ) : ℚ) := add_comm _ _
    rw [show ((p.2, p.1) : ℚ × ℚ).1 = p.2 from rfl,
      show ((p.2, p.1) : ℚ × ℚ).2 = p.1 from rfl,
      show ((n.2, n.1) : ℤ × ℤ).1 = n.2 from rfl,
      show ((n.2, n.1) : ℤ × ℤ).2 = n.1 from rfl, hsum] at h
    rw [h]
    simp only [Except.ok.injEq, Prod.mk.injEq, PyF.val.injEq]
    refine ⟨by ring, by ring, by ring⟩

/-- Witness for C10 at proportions `(1/4, 3/4)` and sizes `(2, 3)`. -/
theorem diff_proportion_conf_interval_swap_antisym_witness :
    ∃ d s : ℚ,
      diff_proportion_conf_interval (fun _ => 1) (fun y => y) (1/4, 3/4)
        (2, 3) (1/2) = .ok (.val d, .val (d - s), .val (d + s)) ∧
      diff_proportion_conf_interval (fun _ => 1) (fun y => y) (3/4, 1/4)
        (3, 2) (1/2) = .ok (.val (-d), .val (-d - s), .val (-d + s)) :=
  diff_proportion_conf_interval_swap_antisym (fun _ => 1) (fun y => y)
    (1/4, 3/4) (2, 3) (1/2) (by norm_num) (by norm_num) (by norm_num)
    (by norm_num) (by norm_num) (by norm_num) (by norm_num) (by norm_num)
